import Mathlib

/-!
Verification development for the `crypto_price_update` repository
(`update_networth_multi.py`, `aps_update.py`, `mag_custom_price.py`).

The Python sources are shallowly embedded below.  Python floats are modelled
as exact rationals represented by an integer numerator and a positive natural
denominator (`PyFloat`); arithmetic on them is exact, and the only float
comparison the programs perform (`x != 0.0` / `x == 0.0`) is modelled by the
numerator-is-zero test, which agrees with the exact value.  Python dicts are
modelled as association lists with insertion-order semantics (`pmInsert`
overwrites in place, keeping the first position of a key).  Fallible code is
modelled with `Option` / `Except`.
-/

/-- Exact model of a Python float: the rational `num / den` with `den > 0`
kept un-normalised so that all arithmetic reduces in the kernel. -/
structure PyFloat where
  num : Int
  den : Nat
deriving DecidableEq

/-- Float multiplication (`a * b`). -/
def PyFloat.mul (a b : PyFloat) : PyFloat := ⟨a.num * b.num, a.den * b.den⟩

/-- Float addition (`a + b`). -/
def PyFloat.add (a b : PyFloat) : PyFloat :=
  ⟨a.num * (b.den : Int) + b.num * (a.den : Int), a.den * b.den⟩

/-- Float halving (`x / 2.0`), used for the OHLC `(open + close) / 2`. -/
def PyFloat.halve (a : PyFloat) : PyFloat := ⟨a.num, a.den * 2⟩

/-- The Python comparison `x == 0.0`: a fraction with positive denominator is
zero exactly when its numerator is. -/
def PyFloat.isZero (a : PyFloat) : Bool := a.num == 0

/-- Python `str.strip()`: drop leading and trailing whitespace. -/
def pyStrip (s : String) : String :=
  String.mk (((s.data.dropWhile Char.isWhitespace).reverse.dropWhile
      Char.isWhitespace).reverse)

/-- Numeric value of a digit character. -/
def digitVal (c : Char) : Nat := c.toNat - 48

/-- Value of a digit string, most significant first. -/
def natOfDigits (ds : List Char) : Nat :=
  ds.foldl (fun n c => n * 10 + digitVal c) 0

/-- Leading optional sign of a numeric literal. -/
def parseSign : List Char → Int × List Char
  | '+' :: rest => (1, rest)
  | '-' :: rest => (-1, rest)
  | cs => (1, cs)

/-- Mantissa of a float literal: digits with an optional fractional part.
Returns the digits' value, the number of fractional digits, and the rest. -/
def parseMantissa (cs : List Char) : Option (Nat × Nat × List Char) :=
  let (ip, r1) := cs.span Char.isDigit
  match r1 with
  | '.' :: r2 =>
    let (fp, r3) := r2.span Char.isDigit
    if ip.isEmpty && fp.isEmpty then none
    else some (natOfDigits (ip ++ fp), fp.length, r3)
  | _ => if ip.isEmpty then none else some (natOfDigits ip, 0, r1)

/-- Optional exponent part `e[+|-]digits` of a float literal. -/
def parseExpPart : List Char → Option (Int × List Char)
  | [] => some (0, [])
  | c :: rest =>
    if c = 'e' ∨ c = 'E' then
      let (es, r2) := parseSign rest
      let (ed, r3) := r2.span Char.isDigit
      if ed.isEmpty then none else some (es * (natOfDigits ed : Int), r3)
    else some (0, c :: rest)

/-- Model of Python `float(s)` on a stripped string: sign, decimal digits with
optional fraction, optional exponent.  (The `inf`/`nan` words and `_`
separators accepted by CPython are not modelled; no input of interest uses
them.)  Returns `none` where `float()` raises `ValueError`. -/
def parseFloatLit (s : String) : Option PyFloat :=
  let (sg, r1) := parseSign s.data
  match parseMantissa r1 with
  | none => none
  | some (m, fdigits, r2) =>
    match parseExpPart r2 with
    | none => none
    | some (e, r3) =>
      if r3.isEmpty then
        let e2 : Int := e - (fdigits : Int)
        if 0 ≤ e2 then some ⟨sg * (m : Int) * (10 : Int) ^ e2.toNat, 1⟩
        else some ⟨sg * (m : Int), 10 ^ (-e2).toNat⟩
      else none

/-- Model of Python `int(s)` on a string: optional sign then digits only
(`int("3.5")` raises). -/
def parseIntLit (s : String) : Option Int :=
  let (sg, r) := parseSign (pyStrip s).data
  if r.isEmpty then none
  else if r.all Char.isDigit then some (sg * (natOfDigits r : Int)) else none

/-- Model of `safe_float` from `update_networth_multi.py`: strip the value, treat the
empty string as the default `0.0`, and fall back to the default when
`float()` raises.  All call sites in the repository use the default `0.0`,
which is inlined here. -/
def safe_float (value : String) : PyFloat :=
  let v := pyStrip value
  if v = "" then ⟨0, 1⟩
  else
    match parseFloatLit v with
    | some q => q
    | none => ⟨0, 1⟩

/-- Round `n / d` (for `d > 0`) to the nearest integer, ties to even —
the rounding used by Python's fixed-point float formatting. -/
def roundHalfEvenDiv (n : Int) (d : Int) : Int :=
  let f := Int.fdiv n d
  let r := n - f * d
  if 2 * r < d then f
  else if d < 2 * r then f + 1
  else if f % 2 = 0 then f else f + 1

/-- Left-pad a string with zeros to width `k`. -/
def padZeros (k : Nat) (s : String) : String :=
  String.mk (List.replicate (k - s.length) '0') ++ s

/-- Model of the Python format `f"{x:.8f}"`: the value rounded (half to even)
to eight decimal places and rendered with exactly eight fractional digits.
(The sign of a negative value that rounds to zero is dropped; no claim
involves one.) -/
def formatFixed8 (q : PyFloat) : String :=
  let n := roundHalfEvenDiv (q.num * 100000000) (q.den : Int)
  let sign := if n < 0 then "-" else ""
  let a := n.natAbs
  sign ++ toString (a / 100000000) ++ "." ++ padZeros 8 (toString (a % 100000000))

/-- Gregorian leap-year test. -/
def isLeapYear (y : Nat) : Bool := (y % 4 == 0 && y % 100 != 0) || y % 400 == 0

/-- Number of days in a month. -/
def daysInMonth (y m : Nat) : Nat :=
  if m = 2 then (if isLeapYear y then 29 else 28)
  else if m = 4 ∨ m = 6 ∨ m = 9 ∨ m = 11 then 30
  else 31

/-- Validity of a calendar date. -/
def validDate (y m d : Nat) : Bool :=
  1 ≤ m && m ≤ 12 && 1 ≤ d && d ≤ daysInMonth y m

/-- Validity of a time of day. -/
def validTime (h mi s : Nat) : Bool := h ≤ 23 && mi ≤ 59 && s ≤ 59

/-- The result of `datetime.strptime` as used by the row loop: only the parsed
fields ever read downstream. -/
structure PyDateTime where
  year : Nat
  month : Nat
  day : Nat
  hour : Nat
  minute : Nat
  second : Nat
deriving DecidableEq

/-- Model of `parse_datetime_utc` from `update_networth_multi.py`: strip the string,
return `none` when empty, otherwise parse it with
`strptime("%Y-%m-%d %H:%M:%S")` and return `none` when that raises.
Modelled as the fixed-width zero-padded form of the format (the one the spec
names); field ranges are validated as `strptime` does. -/
def parse_datetime_utc (s : String) : Option PyDateTime :=
  match (pyStrip s).data with
  | [y1, y2, y3, y4, '-', m1, m2, '-', d1, d2, ' ',
     h1, h2, ':', n1, n2, ':', s1, s2] =>
    if [y1, y2, y3, y4, m1, m2, d1, d2, h1, h2, n1, n2, s1, s2].all Char.isDigit then
      let y := natOfDigits [y1, y2, y3, y4]
      let mo := natOfDigits [m1, m2]
      let da := natOfDigits [d1, d2]
      let h := natOfDigits [h1, h2]
      let mi := natOfDigits [n1, n2]
      let se := natOfDigits [s1, s2]
      if validDate y mo da && validTime h mi se then
        some ⟨y, mo, da, h, mi, se⟩
      else none
    else none
  | _ => none

/-- The `.date().isoformat()` truncation of a parsed datetime. -/
def PyDateTime.dateIso (d : PyDateTime) : String :=
  padZeros 4 (toString d.year) ++ "-" ++ padZeros 2 (toString d.month)
    ++ "-" ++ padZeros 2 (toString d.day)

/-- Optional fractional-second tail accepted after `HH:MM:SS`. -/
def fracTail : List Char → Bool
  | [] => true
  | '.' :: ds => !ds.isEmpty && ds.all Char.isDigit
  | _ => false

/-- Time-of-day tail accepted after the date part of an ISO timestamp. -/
def isoTimeTail : List Char → Bool
  | [] => true
  | sep :: h1 :: h2 :: ':' :: n1 :: n2 :: ':' :: s1 :: s2 :: rest =>
    (sep = 'T' || sep = ' ') && [h1, h2, n1, n2, s1, s2].all Char.isDigit
      && validTime (natOfDigits [h1, h2]) (natOfDigits [n1, n2])
          (natOfDigits [s1, s2])
      && fracTail rest
  | _ => false

/-- Model of `datetime.fromisoformat(s).date().isoformat()` as the loaders use
it: a `YYYY-MM-DD` date, optionally followed by a `T` or space separator and
`HH:MM:SS` with an optional fractional part, truncated to its calendar date.
(Offsets and the short time forms CPython 3.11 also accepts are not modelled;
the spec fixes the timezone-naive form.)  `none` where `fromisoformat`
raises. -/
def isoDateKey (s : String) : Option String :=
  match s.data with
  | y1 :: y2 :: y3 :: y4 :: '-' :: m1 :: m2 :: '-' :: d1 :: d2 :: rest =>
    if [y1, y2, y3, y4, m1, m2, d1, d2].all Char.isDigit
        && validDate (natOfDigits [y1, y2, y3, y4]) (natOfDigits [m1, m2])
            (natOfDigits [d1, d2])
        && isoTimeTail rest then
      some (String.mk [y1, y2, y3, y4, '-', m1, m2, '-', d1, d2])
    else none
  | _ => none

/-- Civil date from a count of days since 1970-01-01 (proleptic Gregorian). -/
def civilFromDays (z0 : Int) : Int × Int × Int :=
  let z := z0 + 719468
  let era := Int.fdiv z 146097
  let doe := z - era * 146097
  let yoe := Int.fdiv (doe - Int.fdiv doe 1460 + Int.fdiv doe 36524
      - Int.fdiv doe 146096) 365
  let doy := doe - (365 * yoe + Int.fdiv yoe 4 - Int.fdiv yoe 100)
  let mp := Int.fdiv (5 * doy + 2) 153
  let d := doy - Int.fdiv (153 * mp + 2) 5 + 1
  let m := if mp < 10 then mp + 3 else mp - 9
  (era * 400 + yoe + (if m ≤ 2 then 1 else 0), m, d)

/-- ISO rendering of a year/month/day triple. -/
def isoOfYMD : Int × Int × Int → String
  | (y, m, d) =>
    padZeros 4 (toString y.toNat) ++ "-" ++ padZeros 2 (toString m.toNat)
      ++ "-" ++ padZeros 2 (toString d.toNat)

/-- Model of `datetime.utcfromtimestamp(ms / 1000.0).date().isoformat()`:
truncate the epoch-milliseconds instant to its UTC calendar date. -/
def dateFromEpochMillis (ms : Int) : String :=
  isoOfYMD (civilFromDays (Int.fdiv ms 86400000))

/-- The `ts_str[:-1]` slice applied when `ts_str.endswith("Z")`: strip one trailing
`Z`. -/
def stripTrailingZ (t : String) : String :=
  match t.data.reverse with
  | 'Z' :: rest => String.mk rest.reverse
  | _ => t

/-- Parsed JSON values, as handed to the loaders by `json.load`. -/
inductive Json where
  | null
  | bool (b : Bool)
  | num (q : PyFloat)
  | str (s : String)
  | arr (elems : List Json)
  | obj (fields : List (String × Json))

/-- Association lookup in a JSON object (dict keys are unique). -/
def jsonGet (fields : List (String × Json)) (k : String) : Option Json :=
  match fields with
  | [] => none
  | (k', v) :: rest => if k' = k then some v else jsonGet rest k

/-- Python `entry.get(k)` as the loaders use it: a missing key and a JSON
`null` value both come back as `None`, and both take the loaders' skip
branch. -/
def pyGet (fields : List (String × Json)) (k : String) : Option Json :=
  match jsonGet fields k with
  | some .null => none
  | r => r

/-- Python `float(x)` on a JSON value: numbers pass through, strings are
parsed (stripped first, as `float()` tolerates surrounding whitespace),
booleans coerce to 0/1; anything else raises (`none`). -/
def pyFloatOfJson : Json → Option PyFloat
  | .num q => some q
  | .str s => parseFloatLit (pyStrip s)
  | .bool b => some ⟨if b then 1 else 0, 1⟩
  | _ => none

/-- Python `int(x)` on a JSON value: numbers truncate toward zero, strings
must be pure optionally-signed digit strings, booleans coerce to 0/1;
anything else raises (`none`). -/
def pyIntOfJson : Json → Option Int
  | .num q => some (Int.tdiv q.num (q.den : Int))
  | .str s => parseIntLit s
  | .bool b => some (if b then 1 else 0)
  | _ => none

/-- Python `str(x)` as applied to timestamp values: faithful for JSON
strings.  Other values render to a placeholder that is not a valid ISO
timestamp, matching the fact that `str()` of a number, boolean or container
never parses as one. -/
def jsonToStr : Json → String
  | .str s => s
  | _ => "<non-string value>"

/-- A `{ "YYYY-MM-DD": price }` dict, as an insertion-ordered association
list with unique keys. -/
abbrev PriceMap := List (String × PyFloat)

/-- Python dict assignment `m[k] = v`: overwrite in place when the key
exists, append otherwise. -/
def pmInsert : PriceMap → String → PyFloat → PriceMap
  | [], k, v => [(k, v)]
  | (k', v') :: rest, k, v =>
    if k' = k then (k, v) :: rest else (k', v') :: pmInsert rest k v

/-- Python dict lookup `m.get(k)`. -/
def pmLookup : PriceMap → String → Option PyFloat
  | [], _ => none
  | (k', v) :: rest, k => if k' = k then some v else pmLookup rest k

/-- The key list of a price map (`m.keys()`). -/
def pmKeys : PriceMap → List String
  | [] => []
  | p :: rest => p.1 :: pmKeys rest

/-- Whether an `Except` result is a success. -/
def exceptIsOk {ε α : Type} : Except ε α → Bool
  | .ok _ => true
  | .error _ => false

/-- One iteration of the `stats` loop of `load_price_map_stats` (and of
`load_local_price_map` in `aps_update.py`): unpack the entry as a
`[ts_ms, price]` pair, then `int(ts_ms)` and `float(price)`.  `none` when
any of those raises — the loop body has no `try`, so `none` aborts the
load. -/
def statsEntry : Json → Option (Int × PyFloat)
  | .arr [t, p] =>
    match pyIntOfJson t, pyFloatOfJson p with
    | some i, some q => some (i, q)
    | _, _ => none
  | _ => none

/-- The `stats` loop: each well-formed entry records its price at its UTC
calendar date; a malformed entry raises and aborts the whole load. -/
def statsFold : List Json → PriceMap → Except String PriceMap
  | [], m => .ok m
  | e :: rest, m =>
    match statsEntry e with
    | some (i, q) => statsFold rest (pmInsert m (dateFromEpochMillis i) q)
    | none => .error "stats entry raised"

/-- Model of `load_price_map_stats` from `update_networth_multi.py` (identical in
structure to `load_local_price_map` in `aps_update.py`), applied to the
parsed JSON document: `data.get("stats", [])` then the unprotected entry
loop. -/
def load_price_map_stats (doc : Json) : Except String PriceMap :=
  match doc with
  | .obj fields =>
    match jsonGet fields "stats" with
    | none => statsFold [] []
    | some (.arr xs) => statsFold xs []
    | some _ => .error "stats value cannot be unpacked as pairs"
  | _ => .error "document has no attribute get"

/-- Outcome of one iteration of the `xy` loop for a dict entry. -/
inductive XYStep where
  | ok (k : String) (v : PyFloat)
  | silent
  | warn
deriving DecidableEq

/-- The body of the `xy` loop of `load_price_map_xy` for one dict entry:
a missing (or null) `x` or `y` is skipped silently with a bare `continue`;
inside the `try`, the timestamp is stripped, a trailing `Z` removed,
parsed with `fromisoformat` and truncated to its date, and the price passed
through `float()` — an exception there prints a warning and skips the
entry. -/
def xyStep (e : List (String × Json)) : XYStep :=
  match pyGet e "x", pyGet e "y" with
  | some ts, some price =>
    match isoDateKey (stripTrailingZ (pyStrip (jsonToStr ts))) with
    | some k =>
      match pyFloatOfJson price with
      | some v => .ok k v
      | none => .warn
    | none => .warn
  | _, _ => .silent

/-- The `xy` loop over the entry list, accumulating the price map and the
number of warnings printed.  A non-dict entry raises (`entry.get` on it
fails outside the `try`). -/
def xyFold : List Json → PriceMap → Nat → Except String (PriceMap × Nat)
  | [], m, w => .ok (m, w)
  | .obj e :: rest, m, w =>
    match xyStep e with
    | .ok k v => xyFold rest (pmInsert m k v) w
    | .silent => xyFold rest m w
    | .warn => xyFold rest m (w + 1)
  | _ :: _, _, _ => .error "entry has no attribute get"

/-- Model of `load_price_map_xy` from `update_networth_multi.py`, applied to the
parsed JSON document: a dict uses its `data` key (defaulting to the empty
list), a top-level list is used directly, anything else raises
`ValueError`.  The second component of a successful result counts the
per-entry warnings printed. -/
def load_price_map_xy (doc : Json) : Except String (PriceMap × Nat) :=
  match doc with
  | .obj fields =>
    match jsonGet fields "data" with
    | none => xyFold [] [] 0
    | some (.arr xs) => xyFold xs [] 0
    | some _ => .error "data value is not iterable as entries"
  | .arr xs => xyFold xs [] 0
  | _ => .error "Unexpected JSON structure"

/-- Outcome of one iteration of the OHLC loop for a dict entry. -/
inductive OhlcStep where
  | ok (k : String) (v : PyFloat)
  | silent
  | warn
deriving DecidableEq

/-- The body of the OHLC loop of `load_mag_xrp_daily_map` in
`mag_custom_price.py` (the same loop opens `load_price_map_mag_xrp_usd`):
a missing (or null) `timestamp`, `open` or `close` is skipped silently;
inside the `try`, the timestamp is stripped, un-`Z`-ed, parsed and truncated
to its date, and the daily price is `(open + close) / 2` — an exception
prints a warning and skips the entry. -/
def ohlcStep (e : List (String × Json)) : OhlcStep :=
  match pyGet e "timestamp", pyGet e "open", pyGet e "close" with
  | some ts, some o, some c =>
    match isoDateKey (stripTrailingZ (pyStrip (jsonToStr ts))) with
    | some k =>
      match pyFloatOfJson o, pyFloatOfJson c with
      | some fo, some fc => .ok k ((fo.add fc).halve)
      | _, _ => .warn
    | none => .warn
  | _, _, _ => .silent

/-- The OHLC loop over the entry list, accumulating the price map and the
warning count. -/
def ohlcFold : List Json → PriceMap → Nat → Except String (PriceMap × Nat)
  | [], m, w => .ok (m, w)
  | .obj e :: rest, m, w =>
    match ohlcStep e with
    | .ok k v => ohlcFold rest (pmInsert m k v) w
    | .silent => ohlcFold rest m w
    | .warn => ohlcFold rest m (w + 1)
  | _ :: _, _, _ => .error "entry has no attribute get"

/-- Model of `load_mag_xrp_daily_map` from `mag_custom_price.py`: the document must be
a top-level list of OHLC entries, otherwise `ValueError` is raised. -/
def load_mag_xrp_daily_map (doc : Json) : Except String (PriceMap × Nat) :=
  match doc with
  | .arr xs => ohlcFold xs [] 0
  | _ => .error "expected a list of OHLC entries"

/-- The combine step shared by `load_price_map_mag_xrp_usd`
(`update_networth_multi.py`) and the main section of `mag_custom_price.py`,
under the spec's name `derive_chained_series`: restrict to the dates present
in both maps and take the product `base[d] * quote[d]` at each.  Iterating
over the base map's (unique) keys and keeping those present in the quote map
enumerates exactly the source's `set(base) & set(quote)` intersection. -/
def derive_chained_series (base quoteMap : PriceMap) : PriceMap :=
  base.filterMap (fun p =>
    match pmLookup quoteMap p.1 with
    | some y => some (p.1, PyFloat.mul p.2 y)
    | none => none)

/-- A transaction row as the main loop of `update_networth_multi.py` reads
it: the seven columns the loop touches, plus the remaining columns (carried
through untouched) as an ordered name/value list. -/
structure Row where
  date : String
  toCcy : String
  toAmt : String
  fromCcy : String
  fromAmt : String
  netAmt : String
  netCcy : String
  rest : List (String × String)
deriving DecidableEq

/-- The `mode` variable of the row loop. -/
inductive Mode where
  | price
  | stable
deriving DecidableEq

/-- What the row loop does with a row: `updated` and `skipped` increment the
respective counter; `passedThrough` touches neither. -/
inductive Outcome where
  | updated
  | skipped
  | passedThrough
deriving DecidableEq

/-- The key set of `TOKEN_CONFIG`: the tokens with a JSON price map.  Only
the STX entry is uncommented in the source. -/
def TOKEN_CONFIG_tokens : List String := ["STX;1770845"]

/-- The `STABLE_TOKENS` set: stablecoins treated 1:1 with USD. -/
def STABLE_TOKENS : List String := ["USDC;7483231", "RLUSD;30660449", "USDC;5377860"]

/-- The `NET_WORTH_CCY_VALUE` constant. -/
def NET_WORTH_CCY_VALUE : String := "USD;10"

/-- The candidate-selection ladder of the row loop (the `token_code` /
`amt_raw` / `mode` assignment): priced tokens before stablecoins, and the
"to" side before the "from" side within each category; `none` when neither
side matches anything. -/
def select_candidate (row : Row) : Option (String × String × Mode) :=
  if row.toCcy ∈ TOKEN_CONFIG_tokens then some (row.toCcy, row.toAmt, .price)
  else if row.fromCcy ∈ TOKEN_CONFIG_tokens then some (row.fromCcy, row.fromAmt, .price)
  else if row.toCcy ∈ STABLE_TOKENS then some (row.toCcy, row.toAmt, .stable)
  else if row.fromCcy ∈ STABLE_TOKENS then some (row.fromCcy, row.fromAmt, .stable)
  else none

/-- The lookup `price_maps_by_token.get(token_code, default empty)`. -/
def pmapsGet (pmaps : List (String × PriceMap)) (k : String) : PriceMap :=
  match pmaps with
  | [] => []
  | (k', v) :: rest => if k' = k then v else pmapsGet rest k

/-- The body of the main row loop of `update_networth_multi.py` for one row,
parameterised by the price maps built at startup (`price_maps_by_token`).
Returns the row as written to the output and what happened to it. -/
def process_row (pmaps : List (String × PriceMap)) (row : Row) : Row × Outcome :=
  if (safe_float row.netAmt).isZero = false then (row, .passedThrough)
  else
    match select_candidate row with
    | none => (row, .passedThrough)
    | some (tok, amtRaw, mode) =>
      let amt := safe_float amtRaw
      if amt.isZero then (row, .skipped)
      else
        match mode with
        | .stable =>
          ({ row with netAmt := formatFixed8 amt, netCcy := NET_WORTH_CCY_VALUE },
            .updated)
        | .price =>
          match parse_datetime_utc row.date with
          | none => (row, .skipped)
          | some d =>
            match pmLookup (pmapsGet pmaps tok) d.dateIso with
            | none => (row, .skipped)
            | some price =>
              ({ row with netAmt := formatFixed8 (amt.mul price),
                          netCcy := NET_WORTH_CCY_VALUE },
                .updated)

/-- The main row loop over all rows: every row is written exactly once, and
the `updated_rows` / `skipped_rows` counters are accumulated.  Returns
(output rows, updated count, skipped count). -/
def run_engine (pmaps : List (String × PriceMap)) : List Row → List Row × Nat × Nat
  | [] => ([], 0, 0)
  | r :: rs =>
    let step := process_row pmaps r
    let restRun := run_engine pmaps rs
    (step.1 :: restRun.1,
      (if step.2 = .updated then 1 else 0) + restRun.2.1,
      (if step.2 = .skipped then 1 else 0) + restRun.2.2)

example : parse_datetime_utc "2024-01-01 12:00:00" = some ⟨2024, 1, 1, 12, 0, 0⟩ := by decide
example : parse_datetime_utc "2024-13-01 12:00:00" = none := by decide
example : (parse_datetime_utc "2024-02-29 23:59:59").isSome = true := by decide
example : (safe_float "150.25").num = 15025 ∧ (safe_float "150.25").den = 100 := by decide
example : formatFixed8 (safe_float "150.25") = "150.25000000" := by decide
example : formatFixed8 ⟨0, 1⟩ = "0.00000000" := by decide
example : formatFixed8 (PyFloat.mul (safe_float "2") ⟨5, 1⟩) = "10.00000000" := by decide
example : isoDateKey "2024-03-05T23:59:59" = some "2024-03-05" := by decide
example : isoDateKey "2024-03-05T00:00:01" = some "2024-03-05" := by decide
example : isoDateKey "garbage" = none := by decide
example : dateFromEpochMillis 86400000 = "1970-01-02" := by decide
example : dateFromEpochMillis 1696723200000 = "2023-10-08" := by decide
example : stripTrailingZ "2024-03-05T23:59:59Z" = "2024-03-05T23:59:59" := by decide
example : (parse_datetime_utc "").isNone = true := by decide
example : safe_float "abc" = ⟨0, 1⟩ := by decide
example : parseFloatLit "1e2" = some ⟨100, 1⟩ := by decide
example : isoDateKey "2026-01-01T00:00:00.000" = some "2026-01-01" := by decide

example :
    process_row [("STX;1770845", [("2024-01-01", ⟨5, 1⟩)])]
      ⟨"2024-01-01 12:00:00", "STX;1770845", "2", "", "", "", "", []⟩ =
      (⟨"2024-01-01 12:00:00", "STX;1770845", "2", "", "", "10.00000000", "USD;10", []⟩,
        .updated) := by decide

example :
    process_row [] ⟨"", "USDC;7483231", "150.25", "", "", "", "", []⟩ =
      (⟨"", "USDC;7483231", "150.25", "", "", "150.25000000", "USD;10", []⟩, .updated) := by
  decide

example :
    process_row [] ⟨"", "X", "3", "Y", "4", "7.5", "", []⟩ =
      (⟨"", "X", "3", "Y", "4", "7.5", "", []⟩, .passedThrough) := by decide

example :
    load_price_map_xy (.obj [("success", .bool true),
      ("data", .arr [.obj [("x", .str "2024-03-05T23:59:59Z"), ("y", .num ⟨1, 1⟩)],
                     .obj [("x", .str "2024-03-05T00:00:01Z"), ("y", .num ⟨2, 1⟩)],
                     .obj [("x", .str "garbage"), ("y", .num ⟨3, 1⟩)],
                     .obj [("y", .num ⟨4, 1⟩)]])]) =
      .ok ([("2024-03-05", ⟨2, 1⟩)], 1) := rfl

example :
    load_price_map_stats (.obj [("stats",
      .arr [.arr [.num ⟨86400000, 1⟩, .num ⟨3, 2⟩]])]) =
      .ok [("1970-01-02", ⟨3, 2⟩)] := rfl

example :
    load_price_map_stats (.obj [("stats",
      .arr [.arr [.num ⟨86400000, 1⟩, .num ⟨3, 2⟩],
            .arr [.str "bad", .num ⟨2, 1⟩]])]) =
      .error "stats entry raised" := rfl

example :
    derive_chained_series [("2024-01-01", ⟨2, 1⟩)]
      [("2024-01-01", ⟨3, 1⟩), ("2024-01-02", ⟨5, 1⟩)] =
      [("2024-01-01", ⟨6, 1⟩)] := by decide

example :
    load_mag_xrp_daily_map (.arr [.obj [("timestamp", .str "2026-01-01T00:00:00.000Z"),
      ("open", .num ⟨892, 1⟩), ("close", .num ⟨902, 1⟩)]]) =
      .ok ([("2026-01-01", ⟨1794, 2⟩)], 0) := rfl

/-! Section: Helper lemmas about the dict model -/

theorem pmLookup_isSome_iff_mem (m : PriceMap) (k : String) :
    (pmLookup m k).isSome = true ↔ k ∈ pmKeys m := by
  induction m with
  | nil => simp [pmLookup, pmKeys]
  | cons p rest ih =>
    obtain ⟨k', v⟩ := p
    by_cases h : k' = k
    · subst h
      simp [pmLookup, pmKeys]
    · have h2 : ¬(k = k') := fun hh => h hh.symm
      simp [pmLookup, pmKeys, h, h2, ih]

theorem pmLookup_eq_none_of_not_mem (m : PriceMap) (k : String)
    (h : k ∉ pmKeys m) : pmLookup m k = none := by
  cases hc : pmLookup m k with
  | none => rfl
  | some v => exact absurd ((pmLookup_isSome_iff_mem m k).mp (by simp [hc])) h

theorem pmLookup_pmInsert_self (m : PriceMap) (k : String) (v : PyFloat) :
    pmLookup (pmInsert m k v) k = some v := by
  induction m with
  | nil => simp [pmInsert, pmLookup]
  | cons p rest ih =>
    obtain ⟨k', v'⟩ := p
    by_cases h : k' = k
    · simp [pmInsert, h, pmLookup]
    · simp [pmInsert, h, pmLookup, ih]

theorem pmLookup_pmInsert_isSome (m : PriceMap) (k k2 : String) (v : PyFloat)
    (h : (pmLookup m k2).isSome = true) :
    (pmLookup (pmInsert m k v) k2).isSome = true := by
  induction m with
  | nil => simp [pmLookup] at h
  | cons p rest ih =>
    obtain ⟨k', v'⟩ := p
    by_cases h2 : k' = k
    · subst h2
      by_cases h3 : k' = k2
      · simp [pmInsert, pmLookup, h3]
      · simp [pmInsert, pmLookup, h3] at h ⊢
        exact h
    · by_cases h3 : k' = k2
      · subst h3
        simp [pmInsert, h2, pmLookup]
      · simp [pmInsert, h2, pmLookup, h3] at h ⊢
        exact ih h

/-! Section: Claim C2 — chained derivation -/

theorem pmKeys_derive_mem (base quoteMap : PriceMap) (d : String) :
    d ∈ pmKeys (derive_chained_series base quoteMap) ↔
      d ∈ pmKeys base ∧ d ∈ pmKeys quoteMap := by
  induction base with
  | nil => simp [derive_chained_series, pmKeys]
  | cons p rest ih =>
    obtain ⟨k, v⟩ := p
    cases hq : pmLookup quoteMap k with
    | some y =>
      have hkq : k ∈ pmKeys quoteMap :=
        (pmLookup_isSome_iff_mem _ _).mp (by simp [hq])
      simp only [derive_chained_series, List.filterMap_cons, hq] at ih ⊢
      by_cases hd : d = k
      · subst hd
        simp [pmKeys, hkq]
      · simp [pmKeys, hd, ih]
    | none =>
      have hknq : k ∉ pmKeys quoteMap := by
        intro hmem
        have := (pmLookup_isSome_iff_mem quoteMap k).mpr hmem
        simp [hq] at this
      simp only [derive_chained_series, List.filterMap_cons, hq] at ih ⊢
      by_cases hd : d = k
      · subst hd
        simp [pmKeys, ih, hknq]
      · simp [pmKeys, hd, ih]

theorem pmLookup_derive (base quoteMap : PriceMap)
    (hb : (pmKeys base).Nodup) (d : String) :
    pmLookup (derive_chained_series base quoteMap) d =
      (pmLookup base d).bind
        (fun a => (pmLookup quoteMap d).map (fun b => a.mul b)) := by
  induction base with
  | nil => simp [derive_chained_series, pmLookup]
  | cons p rest ih =>
    obtain ⟨k, v⟩ := p
    obtain ⟨hknotin, hb2⟩ := List.nodup_cons.mp (by simpa [pmKeys] using hb)
    cases hq : pmLookup quoteMap k with
    | some y =>
      by_cases hd : d = k
      · subst hd
        simp [derive_chained_series, List.filterMap_cons, hq, pmLookup]
      · have hkd : ¬(k = d) := fun hh => hd hh.symm
        simp only [derive_chained_series, List.filterMap_cons, hq] at ih ⊢
        simp [pmLookup, hkd, ih hb2]
    | none =>
      by_cases hd : d = k
      · subst hd
        have hnmem : d ∉ pmKeys (derive_chained_series rest quoteMap) := by
          rw [pmKeys_derive_mem]
          intro hc
          exact hknotin hc.1
        have hnone := pmLookup_eq_none_of_not_mem _ _ hnmem
        simp only [derive_chained_series, List.filterMap_cons, hq] at hnone ⊢
        simp [pmLookup, hnone]
      · have hkd : ¬(k = d) := fun hh => hd hh.symm
        simp only [derive_chained_series, List.filterMap_cons, hq] at ih ⊢
        simp [pmLookup, hkd, ih hb2]

/-- C2.  Chained derivation: for every pair of date-to-price maps (the base
map with unique keys, as every Python dict has), the derived map's key set is
exactly the intersection of the two key sets, and at every common date the
derived value is the product `base[d] * quote[d]`; in particular the base map
`{"2024-01-01": 2.0}` and quote map
`{"2024-01-01": 3.0, "2024-01-02": 5.0}` derive exactly
`{"2024-01-01": 6.0}`. -/
theorem derive_chained_intersection (base quoteMap : PriceMap)
    (hb : (pmKeys base).Nodup) :
    (∀ d, d ∈ pmKeys (derive_chained_series base quoteMap) ↔
        d ∈ pmKeys base ∧ d ∈ pmKeys quoteMap) ∧
    (∀ d, pmLookup (derive_chained_series base quoteMap) d =
        (pmLookup base d).bind
          (fun a => (pmLookup quoteMap d).map (fun b => a.mul b))) ∧
    derive_chained_series [("2024-01-01", ⟨2, 1⟩)]
        [("2024-01-01", ⟨3, 1⟩), ("2024-01-02", ⟨5, 1⟩)] =
      [("2024-01-01", ⟨6, 1⟩)] :=
  ⟨fun d => pmKeys_derive_mem base quoteMap d,
    fun d => pmLookup_derive base quoteMap hb d, by decide⟩

/-- Witness for C2 at the spec's concrete example. -/
theorem derive_chained_intersection_witness :
    derive_chained_series [("2024-01-01", ⟨2, 1⟩)]
        [("2024-01-01", ⟨3, 1⟩), ("2024-01-02", ⟨5, 1⟩)] =
      [("2024-01-01", ⟨6, 1⟩)] :=
  (derive_chained_intersection [("2024-01-01", ⟨2, 1⟩)]
      [("2024-01-01", ⟨3, 1⟩), ("2024-01-02", ⟨5, 1⟩)] (by decide)).2.2

/-! Section: Helper lemmas about the row loop -/

/-- Equality of two rows on every column other than the net-worth amount and
net-worth currency. -/
def frameEq (a b : Row) : Prop :=
  a.date = b.date ∧ a.toCcy = b.toCcy ∧ a.toAmt = b.toAmt ∧
    a.fromCcy = b.fromCcy ∧ a.fromAmt = b.fromAmt ∧ a.rest = b.rest

theorem process_row_frame (pmaps : List (String × PriceMap)) (r : Row) :
    frameEq (process_row pmaps r).1 r := by
  simp only [process_row]
  repeat' split
  all_goals exact ⟨rfl, rfl, rfl, rfl, rfl, rfl⟩

theorem process_row_cases (pmaps : List (String × PriceMap)) (r : Row) :
    (process_row pmaps r).2 = .updated ∨ (process_row pmaps r).1 = r := by
  simp only [process_row]
  repeat' split
  all_goals simp

theorem process_row_nonzero_net (pmaps : List (String × PriceMap)) (r : Row)
    (h : (safe_float r.netAmt).isZero = false) :
    process_row pmaps r = (r, .passedThrough) := by
  simp [process_row, h]

/-! Section: Claim C4 — coverage and frame -/

/-- C4.  Coverage and frame: for every price-map table and every input row
sequence, the engine's output has exactly one row per input row, in input
order, and each output row agrees with its input row on every column except
possibly the net-worth amount and net-worth currency columns — no row is
ever dropped, whatever the per-row outcome. -/
theorem engine_coverage_and_frame (pmaps : List (String × PriceMap))
    (rows : List Row) :
    (run_engine pmaps rows).1.length = rows.length ∧
      List.Forall₂ frameEq (run_engine pmaps rows).1 rows := by
  induction rows with
  | nil => exact ⟨rfl, .nil⟩
  | cons r rs ih =>
    refine ⟨?_, ?_⟩
    · simpa [run_engine] using ih.1
    · exact List.Forall₂.cons (process_row_frame pmaps r) ih.2

/-! Section: Claim C3 — token-selection precedence -/

/-- C3.  Token-selection precedence: the candidate token, amount and mode are
chosen by the fixed ladder — priced-token match on the "to" currency (with
the "to" amount), else priced-token match on the "from" currency (with the
"from" amount), else stable match on the "to" currency, else stable match on
the "from" currency, else no candidate and (for a row with zero current net
worth) the row is written unchanged; in particular a row whose "to" currency
is a priced token and whose "from" currency is a stable asset resolves via
the priced-token path with the "to" amount. -/
theorem token_selection_precedence (row : Row) :
    (row.toCcy ∈ TOKEN_CONFIG_tokens →
        select_candidate row = some (row.toCcy, row.toAmt, .price)) ∧
    (row.toCcy ∉ TOKEN_CONFIG_tokens → row.fromCcy ∈ TOKEN_CONFIG_tokens →
        select_candidate row = some (row.fromCcy, row.fromAmt, .price)) ∧
    (row.toCcy ∉ TOKEN_CONFIG_tokens → row.fromCcy ∉ TOKEN_CONFIG_tokens →
      row.toCcy ∈ STABLE_TOKENS →
        select_candidate row = some (row.toCcy, row.toAmt, .stable)) ∧
    (row.toCcy ∉ TOKEN_CONFIG_tokens → row.fromCcy ∉ TOKEN_CONFIG_tokens →
      row.toCcy ∉ STABLE_TOKENS → row.fromCcy ∈ STABLE_TOKENS →
        select_candidate row = some (row.fromCcy, row.fromAmt, .stable)) ∧
    (row.toCcy ∉ TOKEN_CONFIG_tokens → row.fromCcy ∉ TOKEN_CONFIG_tokens →
      row.toCcy ∉ STABLE_TOKENS → row.fromCcy ∉ STABLE_TOKENS →
        select_candidate row = none ∧
        ∀ pmaps, (safe_float row.netAmt).isZero = true →
          process_row pmaps row = (row, .passedThrough)) ∧
    (row.toCcy ∈ TOKEN_CONFIG_tokens → row.fromCcy ∈ STABLE_TOKENS →
        select_candidate row = some (row.toCcy, row.toAmt, .price)) := by
  refine ⟨fun h1 => ?_, fun h1 h2 => ?_, fun h1 h2 h3 => ?_,
    fun h1 h2 h3 h4 => ?_, fun h1 h2 h3 h4 => ⟨?_, fun pmaps h5 => ?_⟩,
    fun h1 _ => ?_⟩
  · simp [select_candidate, h1]
  · simp [select_candidate, h1, h2]
  · simp [select_candidate, h1, h2, h3]
  · simp [select_candidate, h1, h2, h3, h4]
  · simp [select_candidate, h1, h2, h3, h4]
  · simp [process_row, select_candidate, h1, h2, h3, h4, h5]
  · simp [select_candidate, h1]

/-- Witness for C3: a row whose "to" side is the priced token STX and whose
"from" side is the stable asset USDC resolves via the priced path with the
"to" amount. -/
theorem token_selection_precedence_witness :
    select_candidate ⟨"", "STX;1770845", "2.5", "USDC;7483231", "7", "", "", []⟩ =
      some ("STX;1770845", "2.5", .price) :=
  (token_selection_precedence
      ⟨"", "STX;1770845", "2.5", "USDC;7483231", "7", "", "", []⟩).2.2.2.2.2
    (by decide) (by decide)

/-! Section: Claim C9 — zero-amount skip -/

/-- C9.  Zero-amount skip: for every row with zero current net worth that
matched a candidate token (priced or stable) whose chosen transfer amount
parses as exactly zero (including blank or unparsable amounts, which default
to zero), the row is counted skipped and written unchanged — whatever the
other side of the row could have matched. -/
theorem zero_amount_skipped (pmaps : List (String × PriceMap)) (row : Row)
    (tok amtRaw : String) (mode : Mode)
    (hnet : (safe_float row.netAmt).isZero = true)
    (hsel : select_candidate row = some (tok, amtRaw, mode))
    (hamt : (safe_float amtRaw).isZero = true) :
    process_row pmaps row = (row, .skipped) := by
  simp [process_row, hnet, hsel, hamt]

/-- Witness for C9: a row whose "to" side is the priced token STX with a
blank amount and whose "from" side is the stable asset USDC with a non-zero
amount is skipped, not valued via the stable side. -/
theorem zero_amount_skipped_witness :
    process_row [] ⟨"2024-01-01 00:00:00", "STX;1770845", "", "USDC;7483231", "5", "", "", []⟩ =
      (⟨"2024-01-01 00:00:00", "STX;1770845", "", "USDC;7483231", "5", "", "", []⟩, .skipped) :=
  zero_amount_skipped []
    ⟨"2024-01-01 00:00:00", "STX;1770845", "", "USDC;7483231", "5", "", "", []⟩
    "STX;1770845" "" .price rfl rfl rfl

/-! Section: Claim C1 — priced-mode valuation -/

/-- C1.  Priced-mode valuation: for every row that reaches priced mode (net
worth parses to zero, a priced-token currency matched, chosen amount
non-zero), the date field is parsed with the strict `YYYY-MM-DD HH:MM:SS`
format; an unparsable date counts the row skipped and writes it unchanged;
otherwise the date is truncated to its calendar date and looked up in that
token's price map; a missing price counts the row skipped and writes it
unchanged; a found price sets the net-worth amount to (transfer amount times
price) formatted with exactly eight decimal places, sets the net-worth
currency to the fixed USD designator, and counts the row updated. -/
theorem priced_mode_valuation (pmaps : List (String × PriceMap)) (row : Row)
    (tok amtRaw : String)
    (hnet : (safe_float row.netAmt).isZero = true)
    (hsel : select_candidate row = some (tok, amtRaw, .price))
    (hamt : (safe_float amtRaw).isZero = false) :
    (parse_datetime_utc row.date = none →
        process_row pmaps row = (row, .skipped)) ∧
    (∀ d, parse_datetime_utc row.date = some d →
      (pmLookup (pmapsGet pmaps tok) d.dateIso = none →
          process_row pmaps row = (row, .skipped)) ∧
      (∀ p, pmLookup (pmapsGet pmaps tok) d.dateIso = some p →
          process_row pmaps row =
            ({ row with netAmt := formatFixed8 ((safe_float amtRaw).mul p),
                        netCcy := NET_WORTH_CCY_VALUE }, .updated))) := by
  refine ⟨fun hd => ?_, fun d hd => ⟨fun hp => ?_, fun p hp => ?_⟩⟩
  · simp [process_row, hnet, hsel, hamt, hd]
  · simp [process_row, hnet, hsel, hamt, hd, hp]
  · simp [process_row, hnet, hsel, hamt, hd, hp]

/-- Witness for C1: an STX row priced at 5 USD on its date values a transfer
of 2 STX at 10 USD, written with eight decimals. -/
theorem priced_mode_valuation_witness :
    process_row [("STX;1770845", [("2024-01-01", ⟨5, 1⟩)])]
        ⟨"2024-01-01 12:00:00", "STX;1770845", "2", "", "", "", "", []⟩ =
      (⟨"2024-01-01 12:00:00", "STX;1770845", "2", "", "", "10.00000000", "USD;10", []⟩,
        .updated) :=
  ((priced_mode_valuation [("STX;1770845", [("2024-01-01", ⟨5, 1⟩)])]
        ⟨"2024-01-01 12:00:00", "STX;1770845", "2", "", "", "", "", []⟩
        "STX;1770845" "2" rfl rfl rfl).2
      ⟨2024, 1, 1, 12, 0, 0⟩ rfl).2 ⟨5, 1⟩ rfl

/-! Section: Claim C6 — stable mode (corrected) -/

/-- Counterexample to C6 as stated: in stable mode the net-worth amount is
not the transfer amount string verbatim — the parsed amount is re-formatted
with eight decimal places, so the input `"150.25"` is written back as
`"150.25000000"`, a different string. -/
theorem stable_mode_not_verbatim :
    (process_row [] ⟨"", "USDC;7483231", "150.25", "", "", "", "", []⟩).2 = .updated ∧
    (process_row [] ⟨"", "USDC;7483231", "150.25", "", "", "", "", []⟩).1.netAmt =
      "150.25000000" ∧
    (⟨"", "USDC;7483231", "150.25", "", "", "", "", []⟩ : Row).toAmt = "150.25" ∧
    (process_row [] ⟨"", "USDC;7483231", "150.25", "", "", "", "", []⟩).1.netAmt ≠
      (⟨"", "USDC;7483231", "150.25", "", "", "", "", []⟩ : Row).toAmt :=
  ⟨rfl, rfl, rfl, by decide⟩

/-- C6 (amended).  Stable mode: for every row resolved in stable mode with a
non-zero transfer amount, the net-worth amount is set to the parsed transfer
amount re-formatted with exactly eight decimal places (no price conversion),
the net-worth currency is set to the fixed USD designator, and the row is
counted updated; in particular a "to" amount of `"150.25000000"` yields
net-worth amount `"150.25000000"`. -/
theorem stable_mode_formats_amount (pmaps : List (String × PriceMap))
    (row : Row) (tok amtRaw : String)
    (hnet : (safe_float row.netAmt).isZero = true)
    (hsel : select_candidate row = some (tok, amtRaw, .stable))
    (hamt : (safe_float amtRaw).isZero = false) :
    process_row pmaps row =
      ({ row with netAmt := formatFixed8 (safe_float amtRaw),
                  netCcy := NET_WORTH_CCY_VALUE }, .updated) ∧
    formatFixed8 (safe_float "150.25000000") = "150.25000000" := by
  refine ⟨?_, by decide⟩
  simp [process_row, hnet, hsel, hamt]

/-- Witness for C6 (amended) at the spec's own example amount. -/
theorem stable_mode_formats_amount_witness :
    process_row [] ⟨"", "USDC;7483231", "150.25000000", "", "", "", "", []⟩ =
      (⟨"", "USDC;7483231", "150.25000000", "", "", "150.25000000", "USD;10", []⟩,
        .updated) :=
  (stable_mode_formats_amount []
      ⟨"", "USDC;7483231", "150.25000000", "", "", "", "", []⟩
      "USDC;7483231" "150.25000000" rfl rfl rfl).1

/-! Section: Claim C5 — idempotence on already-priced rows (corrected) -/

/-- Counterexample to C5 as stated: with a price of exactly `0.0` on the
row's date, the first run counts the row updated and writes net worth
`"0.00000000"`, which parses back to zero — so re-running the engine on its
own output updates the same row again (one additional update, not zero). -/
theorem rerun_updates_again_on_zero_price :
    (run_engine [("STX;1770845", [("2024-01-01", ⟨0, 1⟩)])]
        [⟨"2024-01-01 00:00:00", "STX;1770845", "2", "", "", "", "", []⟩]).2.1 = 1 ∧
    (run_engine [("STX;1770845", [("2024-01-01", ⟨0, 1⟩)])]
        (run_engine [("STX;1770845", [("2024-01-01", ⟨0, 1⟩)])]
          [⟨"2024-01-01 00:00:00", "STX;1770845", "2", "", "", "", "", []⟩]).1).2.1 = 1 :=
  ⟨rfl, rfl⟩

/-- C5 (amended).  Idempotence on already-priced rows: every row whose
current net-worth amount parses as a non-zero float (blank or unparsable
amounts count as 0.0) is written unchanged with no counter change; and
re-running the engine on its own output yields zero additional updates
provided every net-worth amount written by the first run parses back as
non-zero (which can fail only when a looked-up price is zero or a product
rounds to zero at eight decimals). -/
theorem already_priced_rows_pass_through (pmaps : List (String × PriceMap))
    (rows : List Row)
    (h : ∀ r ∈ rows, (process_row pmaps r).2 = .updated →
        (safe_float (process_row pmaps r).1.netAmt).isZero = false) :
    (run_engine pmaps (run_engine pmaps rows).1).2.1 = 0 ∧
    ∀ row, (safe_float row.netAmt).isZero = false →
      process_row pmaps row = (row, .passedThrough) := by
  refine ⟨?_, fun row hrow => process_row_nonzero_net pmaps row hrow⟩
  induction rows with
  | nil => rfl
  | cons r rs ih =>
    have hout : (run_engine pmaps (r :: rs)).1 =
        (process_row pmaps r).1 :: (run_engine pmaps rs).1 := rfl
    rw [hout]
    have htail : (run_engine pmaps (run_engine pmaps rs).1).2.1 = 0 :=
      ih (fun x hx => h x (List.mem_cons_of_mem r hx))
    have hhead : (process_row pmaps (process_row pmaps r).1).2 ≠ .updated := by
      by_cases hu : (process_row pmaps r).2 = .updated
      · have hz := h r (List.mem_cons_self r rs) hu
        rw [process_row_nonzero_net pmaps _ hz]
        simp
      · rcases process_row_cases pmaps r with hc | hc
        · exact absurd hc hu
        · rw [hc]
          exact hu
    have hrun : (run_engine pmaps ((process_row pmaps r).1 :: (run_engine pmaps rs).1)).2.1 =
        (if (process_row pmaps (process_row pmaps r).1).2 = .updated then 1 else 0) +
          (run_engine pmaps (run_engine pmaps rs).1).2.1 := rfl
    rw [hrun, htail, if_neg hhead]

/-- Witness for C5 (amended): a priced STX row updated at a non-zero price is
not updated again on the rerun. -/
theorem already_priced_rows_pass_through_witness :
    (run_engine [("STX;1770845", [("2024-01-01", ⟨5, 1⟩)])]
        (run_engine [("STX;1770845", [("2024-01-01", ⟨5, 1⟩)])]
          [⟨"2024-01-01 00:00:00", "STX;1770845", "2", "", "", "", "", []⟩]).1).2.1 = 0 :=
  (already_priced_rows_pass_through [("STX;1770845", [("2024-01-01", ⟨5, 1⟩)])]
      [⟨"2024-01-01 00:00:00", "STX;1770845", "2", "", "", "", "", []⟩]
      (by decide)).1

/-! Section: Claim C7 — epoch-series ("stats") parser (corrected) -/

theorem statsFold_ok_iff (xs : List Json) (m : PriceMap) :
    exceptIsOk (statsFold xs m) = true ↔ ∀ e ∈ xs, (statsEntry e).isSome = true := by
  induction xs generalizing m with
  | nil => simp [statsFold, exceptIsOk]
  | cons e rest ih =>
    cases he : statsEntry e with
    | none => simp [statsFold, he, exceptIsOk]
    | some iq =>
      obtain ⟨i, q⟩ := iq
      simp [statsFold, he, ih]

theorem statsFold_ok_keys (xs : List Json) (m mRes : PriceMap)
    (hok : statsFold xs m = .ok mRes) :
    (∀ k, (pmLookup m k).isSome = true → (pmLookup mRes k).isSome = true) ∧
    (∀ t p, Json.arr [t, p] ∈ xs → ∀ i, pyIntOfJson t = some i →
        (pmLookup mRes (dateFromEpochMillis i)).isSome = true) := by
  induction xs generalizing m with
  | nil =>
    cases hok
    exact ⟨fun k hk => hk, by simp⟩
  | cons e rest ih =>
    cases he : statsEntry e with
    | none =>
      simp only [statsFold, he] at hok
      exact absurd hok (by simp)
    | some iq =>
      obtain ⟨i0, q0⟩ := iq
      simp only [statsFold, he] at hok
      obtain ⟨hpres, hmem⟩ := ih _ hok
      refine ⟨fun k hk => hpres k (pmLookup_pmInsert_isSome _ _ _ _ hk), ?_⟩
      intro t p hin i hi
      rcases List.mem_cons.mp hin with hhead | htail
      · have he2 := he
        rw [← hhead] at he2
        simp only [statsEntry, hi] at he2
        cases hq : pyFloatOfJson p with
        | none => rw [hq] at he2; cases he2
        | some q =>
          rw [hq] at he2
          cases he2
          exact hpres _ (by simp [pmLookup_pmInsert_self])
      · exact hmem t p htail i hi

/-- Counterexample to C7 as stated: the stats parser has no entry-level
resilience.  A document whose `stats` list contains one well-formed entry
and one entry with a non-numeric timestamp does not load the well-formed
entry — the whole load raises; the same document without the malformed
entry loads fine. -/
theorem stats_malformed_entry_aborts_load :
    load_price_map_stats (.obj [("stats",
        .arr [.arr [.num ⟨86400000, 1⟩, .num ⟨3, 2⟩],
              .arr [.str "bad", .num ⟨2, 1⟩]])]) = .error "stats entry raised" ∧
    load_price_map_stats (.obj [("stats",
        .arr [.arr [.num ⟨86400000, 1⟩, .num ⟨3, 2⟩]])]) =
      .ok [("1970-01-02", ⟨3, 2⟩)] :=
  ⟨rfl, rfl⟩

/-- C7 (amended).  The epoch-millis ("stats") parser skips no malformed
entry: the load succeeds exactly when every entry of the series is a
well-formed `[epoch_millis, price]` pair with numeric values (any malformed
entry raises out of the loop and aborts the whole load), and on success
every entry's UTC calendar date is present in the returned price map. -/
theorem stats_parser_no_entry_resilience (fields : List (String × Json))
    (xs : List Json) (hs : jsonGet fields "stats" = some (.arr xs)) :
    (exceptIsOk (load_price_map_stats (.obj fields)) = true ↔
        ∀ e ∈ xs, (statsEntry e).isSome = true) ∧
    (∀ m, load_price_map_stats (.obj fields) = .ok m →
      ∀ t p, Json.arr [t, p] ∈ xs → ∀ i, pyIntOfJson t = some i →
        (pmLookup m (dateFromEpochMillis i)).isSome = true) := by
  constructor
  · simpa [load_price_map_stats, hs] using statsFold_ok_iff xs []
  · intro m hm
    have hm2 : statsFold xs [] = .ok m := by
      simpa [load_price_map_stats, hs] using hm
    exact (statsFold_ok_keys xs [] m hm2).2

/-- Witness for C7 (amended): a document whose every entry is well-formed
loads successfully. -/
theorem stats_parser_no_entry_resilience_witness :
    exceptIsOk (load_price_map_stats (.obj [("stats",
        .arr [.arr [.num ⟨86400000, 1⟩, .num ⟨3, 2⟩]])])) = true :=
  (stats_parser_no_entry_resilience [("stats",
        .arr [.arr [.num ⟨86400000, 1⟩, .num ⟨3, 2⟩]])]
      [.arr [.num ⟨86400000, 1⟩, .num ⟨3, 2⟩]] rfl).1.mpr (by decide)

/-! Section: Claim C8 — xy/OHLC per-entry resilience (corrected) -/

theorem xyFold_spec (xs : List (List (String × Json))) (m : PriceMap) (w : Nat) :
    ∃ mRes, xyFold (xs.map Json.obj) m w =
        .ok (mRes, w + (xs.filter (fun e => xyStep e == XYStep.warn)).length) ∧
      (∀ k, (pmLookup m k).isSome = true → (pmLookup mRes k).isSome = true) ∧
      (∀ e ∈ xs, ∀ k v, xyStep e = .ok k v → (pmLookup mRes k).isSome = true) := by
  induction xs generalizing m w with
  | nil => exact ⟨m, by simp [xyFold], fun k hk => hk, by simp⟩
  | cons e rest ih =>
    cases hstep : xyStep e with
    | ok k v =>
      obtain ⟨mRes, hok, hpres, hmem⟩ := ih (pmInsert m k v) w
      refine ⟨mRes, ?_, fun k2 hk2 =>
          hpres k2 (pmLookup_pmInsert_isSome _ _ _ _ hk2), ?_⟩
      · rw [List.map_cons]
        simp only [xyFold, hstep]
        rw [hok]
        have hcount : ((e :: rest).filter (fun x => xyStep x == XYStep.warn)).length =
            (rest.filter (fun x => xyStep x == XYStep.warn)).length := by
          simp [List.filter_cons, hstep]
        rw [hcount]
      · intro x hx k2 v2 hxk
        rcases List.mem_cons.mp hx with hxe | hxr
        · subst hxe
          rw [hstep] at hxk
          cases hxk
          exact hpres _ (by simp [pmLookup_pmInsert_self])
        · exact hmem x hxr k2 v2 hxk
    | silent =>
      obtain ⟨mRes, hok, hpres, hmem⟩ := ih m w
      refine ⟨mRes, ?_, hpres, ?_⟩
      · rw [List.map_cons]
        simp only [xyFold, hstep]
        rw [hok]
        have hcount : ((e :: rest).filter (fun x => xyStep x == XYStep.warn)).length =
            (rest.filter (fun x => xyStep x == XYStep.warn)).length := by
          simp [List.filter_cons, hstep]
        rw [hcount]
      · intro x hx k2 v2 hxk
        rcases List.mem_cons.mp hx with hxe | hxr
        · subst hxe
          rw [hstep] at hxk
          exact XYStep.noConfusion hxk
        · exact hmem x hxr k2 v2 hxk
    | warn =>
      obtain ⟨mRes, hok, hpres, hmem⟩ := ih m (w + 1)
      refine ⟨mRes, ?_, hpres, ?_⟩
      · rw [List.map_cons]
        simp only [xyFold, hstep]
        rw [hok]
        have hcount : w + ((e :: rest).filter (fun x => xyStep x == XYStep.warn)).length =
            (w + 1) + (rest.filter (fun x => xyStep x == XYStep.warn)).length := by
          simp only [List.filter_cons, hstep]
          simp
          omega
        rw [← hcount]
      · intro x hx k2 v2 hxk
        rcases List.mem_cons.mp hx with hxe | hxr
        · subst hxe
          rw [hstep] at hxk
          exact XYStep.noConfusion hxk
        · exact hmem x hxr k2 v2 hxk

theorem ohlcFold_spec (xs : List (List (String × Json))) (m : PriceMap) (w : Nat) :
    ∃ mRes, ohlcFold (xs.map Json.obj) m w =
        .ok (mRes, w + (xs.filter (fun e => ohlcStep e == OhlcStep.warn)).length) ∧
      (∀ k, (pmLookup m k).isSome = true → (pmLookup mRes k).isSome = true) ∧
      (∀ e ∈ xs, ∀ k v, ohlcStep e = .ok k v → (pmLookup mRes k).isSome = true) := by
  induction xs generalizing m w with
  | nil => exact ⟨m, by simp [ohlcFold], fun k hk => hk, by simp⟩
  | cons e rest ih =>
    cases hstep : ohlcStep e with
    | ok k v =>
      obtain ⟨mRes, hok, hpres, hmem⟩ := ih (pmInsert m k v) w
      refine ⟨mRes, ?_, fun k2 hk2 =>
          hpres k2 (pmLookup_pmInsert_isSome _ _ _ _ hk2), ?_⟩
      · rw [List.map_cons]
        simp only [ohlcFold, hstep]
        rw [hok]
        have hcount : ((e :: rest).filter (fun x => ohlcStep x == OhlcStep.warn)).length =
            (rest.filter (fun x => ohlcStep x == OhlcStep.warn)).length := by
          simp [List.filter_cons, hstep]
        rw [hcount]
      · intro x hx k2 v2 hxk
        rcases List.mem_cons.mp hx with hxe | hxr
        · subst hxe
          rw [hstep] at hxk
          cases hxk
          exact hpres _ (by simp [pmLookup_pmInsert_self])
        · exact hmem x hxr k2 v2 hxk
    | silent =>
      obtain ⟨mRes, hok, hpres, hmem⟩ := ih m w
      refine ⟨mRes, ?_, hpres, ?_⟩
      · rw [List.map_cons]
        simp only [ohlcFold, hstep]
        rw [hok]
        have hcount : ((e :: rest).filter (fun x => ohlcStep x == OhlcStep.warn)).length =
            (rest.filter (fun x => ohlcStep x == OhlcStep.warn)).length := by
          simp [List.filter_cons, hstep]
        rw [hcount]
      · intro x hx k2 v2 hxk
        rcases List.mem_cons.mp hx with hxe | hxr
        · subst hxe
          rw [hstep] at hxk
          exact OhlcStep.noConfusion hxk
        · exact hmem x hxr k2 v2 hxk
    | warn =>
      obtain ⟨mRes, hok, hpres, hmem⟩ := ih m (w + 1)
      refine ⟨mRes, ?_, hpres, ?_⟩
      · rw [List.map_cons]
        simp only [ohlcFold, hstep]
        rw [hok]
        have hcount : w + ((e :: rest).filter (fun x => ohlcStep x == OhlcStep.warn)).length =
            (w + 1) + (rest.filter (fun x => ohlcStep x == OhlcStep.warn)).length := by
          simp only [List.filter_cons, hstep]
          simp
          omega
        rw [← hcount]
      · intro x hx k2 v2 hxk
        rcases List.mem_cons.mp hx with hxe | hxr
        · subst hxe
          rw [hstep] at hxk
          exact OhlcStep.noConfusion hxk
        · exact hmem x hxr k2 v2 hxk

/-- Counterexample to C8 as stated: an xy entry with a present timestamp but
a missing price field is skipped silently — the series loads with zero
warnings, where the claim requires a logged warning for a missing field. -/
theorem xy_missing_field_skipped_silently :
    load_price_map_xy (.obj [("data",
        .arr [.obj [("x", .str "2024-03-05T23:59:59Z")]])]) = .ok ([], 0) ∧
    xyStep [("x", .str "2024-03-05T23:59:59Z")] = .silent :=
  ⟨rfl, rfl⟩

/-- C8 (amended).  XY/OHLC per-entry resilience: for every document whose
entry list consists of JSON objects, both the xy parser and the OHLC parser
load without aborting — entries whose timestamp (or price/open/close field)
fails to parse are skipped with a logged warning, entries with a missing or
null field are skipped silently (no warning), and every well-formed entry's
calendar-date key is present in the returned map; the same trailing-`Z`
stripping and calendar-date truncation applies, so two timestamps on the
same UTC day map to the same date key. -/
theorem xy_ohlc_entry_resilience (xs ys : List (List (String × Json))) :
    (∃ m, load_price_map_xy (.arr (xs.map Json.obj)) =
        .ok (m, (xs.filter (fun e => xyStep e == XYStep.warn)).length) ∧
        ∀ e ∈ xs, ∀ k v, xyStep e = .ok k v → (pmLookup m k).isSome = true) ∧
    (∃ m, load_mag_xrp_daily_map (.arr (ys.map Json.obj)) =
        .ok (m, (ys.filter (fun e => ohlcStep e == OhlcStep.warn)).length) ∧
        ∀ e ∈ ys, ∀ k v, ohlcStep e = .ok k v → (pmLookup m k).isSome = true) ∧
    xyStep [("x", .str "2024-03-05T23:59:59Z"), ("y", .num ⟨1, 1⟩)] =
      .ok "2024-03-05" ⟨1, 1⟩ ∧
    xyStep [("x", .str "2024-03-05T00:00:01Z"), ("y", .num ⟨2, 1⟩)] =
      .ok "2024-03-05" ⟨2, 1⟩ ∧
    xyStep [("x", .str "not a timestamp"), ("y", .num ⟨3, 1⟩)] = .warn := by
  obtain ⟨m1, hok1, _, hmem1⟩ := xyFold_spec xs [] 0
  obtain ⟨m2, hok2, _, hmem2⟩ := ohlcFold_spec ys [] 0
  refine ⟨⟨m1, ?_, hmem1⟩, ⟨m2, ?_, hmem2⟩, rfl, rfl, rfl⟩
  · simpa [load_price_map_xy] using hok1
  · simpa [load_mag_xrp_daily_map] using hok2

/-! Section: Claim C10 — xy loader accepts a keyless dict -/

theorem xyFold_ne_struct_error (xs : List Json) (m : PriceMap) (w : Nat) :
    xyFold xs m w ≠ .error "Unexpected JSON structure" := by
  induction xs generalizing m w with
  | nil => simp [xyFold]
  | cons e rest ih =>
    cases e with
    | obj fields =>
      simp only [xyFold]
      cases hstep : xyStep fields with
      | ok k v => exact ih _ _
      | silent => exact ih _ _
      | warn => exact ih _ _
    | null => simp [xyFold]
    | bool b => simp [xyFold]
    | num q => simp [xyFold]
    | str s => simp [xyFold]
    | arr zs => simp [xyFold]

theorem load_xy_obj_ne_struct_error (fs : List (String × Json)) :
    load_price_map_xy (.obj fs) ≠ .error "Unexpected JSON structure" := by
  simp only [load_price_map_xy]
  cases hget : jsonGet fs "data" with
  | none => simp [xyFold]
  | some v =>
    cases v with
    | arr zs => exact xyFold_ne_struct_error zs [] 0
    | null => simp
    | bool b => simp
    | num q => simp
    | str s => simp
    | obj fs2 => simp

/-- C10.  The xy price-map loader raises no error on a dict that lacks the
`data` key: it returns an empty price map with no warnings; and the fatal
structural `ValueError` arises exactly for a top-level value that is neither
a dict nor a list. -/
theorem xy_keyless_dict_loads_empty (fields : List (String × Json))
    (h : jsonGet fields "data" = none) :
    load_price_map_xy (.obj fields) = .ok ([], 0) ∧
    ∀ j : Json, (load_price_map_xy j = .error "Unexpected JSON structure" ↔
        (∀ fs, j ≠ .obj fs) ∧ (∀ zs, j ≠ .arr zs)) := by
  constructor
  · simp [load_price_map_xy, h, xyFold]
  · intro j
    cases j with
    | null => simp [load_price_map_xy]
    | bool b => simp [load_price_map_xy]
    | num q => simp [load_price_map_xy]
    | str s => simp [load_price_map_xy]
    | arr zs =>
      constructor
      · intro hc
        exact absurd hc (by simpa [load_price_map_xy] using xyFold_ne_struct_error zs [] 0)
      · intro hc
        exact absurd rfl (hc.2 zs)
    | obj fs =>
      constructor
      · intro hc
        exact absurd hc (load_xy_obj_ne_struct_error fs)
      · intro hc
        exact absurd rfl (hc.1 fs)

/-- Witness for C10: a dict with only a `success` key loads as an empty
price map. -/
theorem xy_keyless_dict_loads_empty_witness :
    load_price_map_xy (.obj [("success", .bool true)]) = .ok ([], 0) :=
  (xy_keyless_dict_loads_empty [("success", .bool true)] rfl).1

/-- Witness for C8 (amended) at a concrete entry: a timestamp late on
2024-03-05 truncates to that calendar-date key. -/
theorem xy_ohlc_entry_resilience_witness :
    xyStep [("x", .str "2024-03-05T23:59:59Z"), ("y", .num ⟨1, 1⟩)] =
      .ok "2024-03-05" ⟨1, 1⟩ :=
  (xy_ohlc_entry_resilience [] []).2.2.1
